import Mathlib

/-!
Verification of the difficulty-classification engine in
`scripts/parse_words.py` (French word categorizer).

Strings are embedded as `List Char`; Python `str.lower()` is embedded for
the ASCII and Latin-1 letter ranges, which cover the whole French alphabet
(every character occurring in the script's pattern tables, vowel set and
curated word list, and every realistic input).  Regex use in the script is
trivial: `re.match(r'.*X$', w)` on a whitespace-free word is an
ends-with test and `re.search(r'.*X.*', w)` is a substring test, so both
are embedded as such.  File I/O is abstracted into a `LoadResult`
argument; everything between the two I/O points is embedded exactly.
-/

/-- Python `str.lower()` restricted to one character, covering ASCII
`A`–`Z` and the Latin-1 uppercase letters `À`–`Þ` (excluding `×`), which
both map to the code point 32 higher; every other character is fixed. -/
def pyLower (c : Char) : Char :=
  if 65 ≤ c.toNat ∧ c.toNat ≤ 90 then Char.ofNat (c.toNat + 32)
  else if 192 ≤ c.toNat ∧ c.toNat ≤ 222 ∧ c.toNat ≠ 215 then Char.ofNat (c.toNat + 32)
  else c

/-- Does `s` start with the pattern `p`? -/
def beginsWith : List Char → List Char → Bool
  | [], _ => true
  | _ :: _, [] => false
  | p :: ps, c :: cs => p == c && beginsWith ps cs

/-- Does `s` end with the pattern `p`?  Embeds Python
`re.match(r'.*P$', s)` for whitespace-free `s` (the only call sites). -/
def endsWith (p s : List Char) : Bool :=
  beginsWith p.reverse s.reverse

/-- Does the pattern `p` occur as a contiguous substring of `s`?  Embeds
Python `re.search(r'.*P.*', s)`, which succeeds iff `P` occurs in `s`. -/
def occursIn (p : List Char) : List Char → Bool
  | [] => beginsWith p []
  | c :: cs => beginsWith p (c :: cs) || occursIn p cs

/-- The vowel string `'aeiouyàáâäèéêëìíîïòóôöùúûü'` of `count_syllables`. -/
def vowels : List Char :=
  ['a', 'e', 'i', 'o', 'u', 'y', 'à', 'á', 'â', 'ä', 'è', 'é', 'ê', 'ë',
   'ì', 'í', 'î', 'ï', 'ò', 'ó', 'ô', 'ö', 'ù', 'ú', 'û', 'ü']

/-- The loop of `count_syllables`: scan the characters with the
`prev_was_vowel` flag, counting contiguous vowel runs. -/
def countVowelRuns : List Char → Bool → Nat
  | [], _ => 0
  | c :: cs, prev =>
      if c ∈ vowels then
        (if prev then 0 else 1) + countVowelRuns cs true
      else
        countVowelRuns cs false

/-- `count_syllables(word)`: lower-case, count vowel runs, subtract one
for a final silent `e` when the running count exceeds 1, clamp to ≥ 1. -/
def count_syllables (word : List Char) : Nat :=
  let word_clean := word.map pyLower
  let syllable_count := countVowelRuns word_clean false
  let adjusted :=
    if word_clean.getLast? = some 'e' ∧ 1 < syllable_count then
      syllable_count - 1
    else syllable_count
  max 1 adjusted

/-- The `technical_patterns` table: the regexes `.*tion$`, …, each a pure
end-anchored suffix. -/
def technical_patterns : List (List Char) :=
  ["tion", "sion", "ique", "logie", "graphie", "métrie", "scope",
   "phage", "gène", "pathie", "thérapie"].map String.data

/-- `is_technical_term(word)`: does the lower-cased word end with any
technical suffix? -/
def is_technical_term (word : List Char) : Bool :=
  let word_lower := word.map pyLower
  technical_patterns.any fun pat => endsWith pat word_lower

/-- The `complex_patterns` table: 17 substring patterns (9 doubled
consonants, 5 digraphs, and the bare letters x, y, w). -/
def complex_patterns : List (List Char) :=
  ["cc", "mm", "nn", "ff", "ll", "rr", "ss", "tt", "pp",
   "ph", "th", "ch", "gn", "qu", "x", "y", "w"].map String.data

/-- The count `complex_count` in `has_complex_spelling`: how many of the
17 patterns occur in the lower-cased word. -/
def complexMatchCount (word : List Char) : Nat :=
  let word_lower := word.map pyLower
  complex_patterns.countP fun pat => occursIn pat word_lower

/-- `has_complex_spelling(word)`: at least two of the 17 patterns match. -/
def has_complex_spelling (word : List Char) : Bool :=
  decide (2 ≤ complexMatchCount word)

/-- Python whitespace characters recognised by `str.split()` (the ASCII
ones; no others occur in the data). -/
def isPySpace (c : Char) : Bool :=
  c == ' ' || c == '\t' || c == '\n' || c == '\r' ||
  c == Char.ofNat 11 || c == Char.ofNat 12

/-- Accumulator worker for `pySplit`. -/
def pySplitAux : List Char → List Char → List (List Char)
  | [], acc => if acc = [] then [] else [acc.reverse]
  | c :: cs, acc =>
      if isPySpace c then
        if acc = [] then pySplitAux cs []
        else acc.reverse :: pySplitAux cs []
      else pySplitAux cs (c :: acc)

/-- Python `s.split()` (no separator): split on runs of whitespace,
dropping empty tokens.  The script calls `word.strip().split()`; the
`strip()` is a no-op before an argumentless `split()`. -/
def pySplit (s : List Char) : List (List Char) :=
  pySplitAux s []

/-- The three difficulty tiers `'facile'`, `'moyen'`, `'difficile'`. -/
inductive Tier where
  | facile
  | moyen
  | difficile
deriving DecidableEq

/-- The curated easy-word list of `categorize_word` (rule 3's `in` list). -/
def easy_words : List (List Char) :=
  ["un", "une", "le", "la", "les", "de", "du", "des", "et", "ou", "où",
   "qui", "que", "quoi", "avec", "pour", "dans", "sur", "sous", "par",
   "chat", "chien", "eau", "feu", "air", "terre", "jour", "nuit", "ami",
   "père", "mère", "fils", "fille", "homme", "femme", "enfant", "bébé",
   "rouge", "bleu", "vert", "jaune", "noir", "blanc", "grand", "petit",
   "bon", "mauvais", "beau", "laid", "nouveau", "vieux", "jeune",
   "manger", "boire", "dormir", "marcher", "courir", "voir", "entendre",
   "parler", "écouter", "regarder", "sentir", "toucher", "aimer",
   "maison", "école", "travail", "voiture", "train", "avion", "livre",
   "pain", "lait", "viande", "fruit", "légume", "temps", "argent"].map String.data

/-- `categorize_word(word)`.  `none` embeds the `IndexError` raised by
`words[0]` when the tokenization is empty; the phrase-branch float
division `total_length / len(words)` is embedded as exact rational
division (exact for all realistic sizes). -/
def categorize_word (word : List Char) : Option Tier :=
  let words := pySplit word
  if 1 < words.length then
    let total_length := (word.filter fun c => ¬ c = ' ').length
    let avg_word_length : ℚ := (total_length : ℚ) / (words.length : ℚ)
    if words.length ≤ 2 ∧ avg_word_length ≤ 5 then some Tier.facile
    else if words.length ≤ 3 ∧ avg_word_length ≤ 7 then some Tier.moyen
    else some Tier.difficile
  else
    match words.head? with
    | none => none
    | some single_word =>
      let word_length := single_word.length
      let syllable_count := count_syllables single_word
      if is_technical_term single_word then some Tier.difficile
      else if has_complex_spelling single_word ∧ 8 < word_length then some Tier.difficile
      else if (word_length ≤ 5 ∧ syllable_count ≤ 2) ∨ single_word.map pyLower ∈ easy_words then
        some Tier.facile
      else if 12 < word_length ∨ 4 < syllable_count ∨
              is_technical_term single_word = true ∨
              has_complex_spelling single_word = true then
        some Tier.difficile
      else some Tier.moyen

/-- A step-4 variant of the single-word branch that tests only
`len > 12 OR syl > 4`: the decision tree the spec asserts to be
observationally equal to `categorize_word` (both rule re-checks removed). -/
def categorize_word_spec_step4 (word : List Char) : Option Tier :=
  let words := pySplit word
  if 1 < words.length then
    let total_length := (word.filter fun c => ¬ c = ' ').length
    let avg_word_length : ℚ := (total_length : ℚ) / (words.length : ℚ)
    if words.length ≤ 2 ∧ avg_word_length ≤ 5 then some Tier.facile
    else if words.length ≤ 3 ∧ avg_word_length ≤ 7 then some Tier.moyen
    else some Tier.difficile
  else
    match words.head? with
    | none => none
    | some single_word =>
      let word_length := single_word.length
      let syllable_count := count_syllables single_word
      if is_technical_term single_word then some Tier.difficile
      else if has_complex_spelling single_word ∧ 8 < word_length then some Tier.difficile
      else if (word_length ≤ 5 ∧ syllable_count ≤ 2) ∨ single_word.map pyLower ∈ easy_words then
        some Tier.facile
      else if 12 < word_length ∨ 4 < syllable_count then some Tier.difficile
      else some Tier.moyen

/-- A step-4 variant that keeps the `has_complex_spelling` disjunct and
drops only the `is_technical_term` re-check (the disjunct that really is
inert, since rule 1 already failed). -/
def categorize_word_no_tech_recheck (word : List Char) : Option Tier :=
  let words := pySplit word
  if 1 < words.length then
    let total_length := (word.filter fun c => ¬ c = ' ').length
    let avg_word_length : ℚ := (total_length : ℚ) / (words.length : ℚ)
    if words.length ≤ 2 ∧ avg_word_length ≤ 5 then some Tier.facile
    else if words.length ≤ 3 ∧ avg_word_length ≤ 7 then some Tier.moyen
    else some Tier.difficile
  else
    match words.head? with
    | none => none
    | some single_word =>
      let word_length := single_word.length
      let syllable_count := count_syllables single_word
      if is_technical_term single_word then some Tier.difficile
      else if has_complex_spelling single_word ∧ 8 < word_length then some Tier.difficile
      else if (word_length ≤ 5 ∧ syllable_count ≤ 2) ∨ single_word.map pyLower ∈ easy_words then
        some Tier.facile
      else if 12 < word_length ∨ 4 < syllable_count ∨ has_complex_spelling single_word = true then
        some Tier.difficile
      else some Tier.moyen

/-- The `categorized_words` dictionary of `parse_words_file`: three
tier-indexed association lists (Python dicts preserve insertion order,
and every inserted key is fresh when the input keys are distinct, so
insertion is embedded as appending). -/
structure CategorizedWords where
  facile : List (String × String)
  moyen : List (String × String)
  difficile : List (String × String)
deriving DecidableEq

/-- The initial dictionary `{'facile': {}, 'moyen': {}, 'difficile': {}}`. -/
def emptyCategorized : CategorizedWords := ⟨[], [], []⟩

/-- The tier-indexed field access `categorized_words[difficulty]`. -/
def tierEntries (d : CategorizedWords) : Tier → List (String × String)
  | Tier.facile => d.facile
  | Tier.moyen => d.moyen
  | Tier.difficile => d.difficile

/-- The keys of one tier's mapping. -/
def tierKeys (d : CategorizedWords) (t : Tier) : List String :=
  (tierEntries d t).map Prod.fst

/-- `categorized_words[difficulty][filename] = word`. -/
def insertEntry (d : CategorizedWords) (t : Tier) (filename text : String) : CategorizedWords :=
  match t with
  | Tier.facile => { d with facile := d.facile ++ [(filename, text)] }
  | Tier.moyen => { d with moyen := d.moyen ++ [(filename, text)] }
  | Tier.difficile => { d with difficile := d.difficile ++ [(filename, text)] }

/-- The classification loop `for filename, word in words_data.items()`:
each entry goes to the tier named by `categorize_word`; `none` embeds an
uncaught exception from an entry whose text has no token. -/
def buildDict : List (String × String) → CategorizedWords → Option CategorizedWords
  | [], acc => some acc
  | (filename, text) :: rest, acc =>
      match categorize_word text.data with
      | none => none
      | some t => buildDict rest (insertEntry acc t filename text)

/-- Outcome of the two input I/O steps of `parse_words_file`:
`open` raising `FileNotFoundError`, `json.load` raising
`JSONDecodeError`, or the parsed key/value mapping. -/
inductive LoadResult where
  | missing
  | badJSON
  | parsed (data : List (String × String))
deriving DecidableEq

/-- Observable outcome of one run of `parse_words_file`: what was
written to the output file (`none` when it was never opened) and the
error message printed, if any. -/
structure RunResult where
  written : Option CategorizedWords
  message : Option String
deriving DecidableEq

/-- `parse_words_file(input_file, ...)`: the try/except shell. The write
of the output file happens after the whole classification loop, so a
load failure or a classification failure leaves the output unwritten. -/
def parse_words_file (input_file : String) (load : LoadResult) : RunResult :=
  match load with
  | LoadResult.missing =>
      { written := none, message := some ("Error: Could not find " ++ input_file) }
  | LoadResult.badJSON =>
      { written := none, message := some ("Error: Invalid JSON in " ++ input_file) }
  | LoadResult.parsed data =>
      match buildDict data emptyCategorized with
      | none => { written := none, message := some "Error: uncaught exception during categorization" }
      | some d => { written := some d, message := none }

/-- C1: the claim is FALSE.  "chattes" is a single token with two
complex-spelling patterns (`tt`, `ch`) but length 7 ≤ 8, so rule 2 does
not fire, yet the `has_complex_spelling` disjunct of step 4 does: the
real tree answers hard while the claimed simplified tree answers medium. -/
theorem claim_C1_counterexample :
    (pySplit (String.data "chattes")).length = 1 ∧
    categorize_word (String.data "chattes") = some Tier.difficile ∧
    categorize_word_spec_step4 (String.data "chattes") = some Tier.moyen := by
  decide

/-- C1 (amended): only the `is_technical_term` re-check of step 4 is
behaviorally inert; dropping it alone never changes the tier, for every
input text (single-token or not). -/
theorem claim_C1_theorem (w : List Char) :
    categorize_word w = categorize_word_no_tech_recheck w := by
  unfold categorize_word categorize_word_no_tech_recheck
  by_cases h1 : 1 < (pySplit w).length
  · simp only [if_pos h1]
  · simp only [if_neg h1]
    cases hh : (pySplit w).head? with
    | none => rfl
    | some sw =>
      by_cases ht : is_technical_term sw = true
      · simp [ht]
      · simp [ht]

/-- An all-whitespace remainder contributes no further token. -/
theorem pySplitAux_eq_nil (s : List Char) (hs : ∀ c ∈ s, isPySpace c = true) :
    pySplitAux s [] = [] := by
  induction s with
  | nil => rfl
  | cons c cs ih =>
      have hc : isPySpace c = true := hs c (List.mem_cons_self c cs)
      simp only [pySplitAux, hc, if_pos rfl, if_true]
      exact ih fun d hd => hs d (List.mem_cons_of_mem c hd)

/-- A non-whitespace character guarantees at least one token. -/
theorem pySplitAux_ne_nil (s : List Char) :
    ∀ acc, (∃ c ∈ s, isPySpace c = false) ∨ acc ≠ [] → pySplitAux s acc ≠ [] := by
  induction s with
  | nil =>
      intro acc h
      rcases h with ⟨c, hc, _⟩ | hacc
      · exact absurd hc (List.not_mem_nil c)
      · simp only [pySplitAux, if_neg hacc]
        exact List.cons_ne_nil _ _
  | cons c cs ih =>
      intro acc h
      by_cases hc : isPySpace c = true
      · rcases h with ⟨d, hd, hdf⟩ | hacc
        · rcases List.mem_cons.mp hd with rfl | hd'
          · rw [hc] at hdf; exact absurd hdf (by simp)
          · simp only [pySplitAux, hc, if_true]
            by_cases hacc : acc = []
            · rw [if_pos hacc]
              exact ih [] (Or.inl ⟨d, hd', hdf⟩)
            · rw [if_neg hacc]
              exact List.cons_ne_nil _ _
        · simp only [pySplitAux, hc, if_true, if_neg hacc]
          exact List.cons_ne_nil _ _
      · simp only [pySplitAux, hc, if_false]
        exact ih (c :: acc) (Or.inr (List.cons_ne_nil c acc))

/-- C3: on a text whose tokenization is empty (empty or all-whitespace),
`categorize_word` yields no tier (it hits the out-of-bounds `words[0]`);
with at least one non-whitespace character it always yields a tier. -/
theorem claim_C3_theorem (w : List Char) :
    ((∀ c ∈ w, isPySpace c = true) → categorize_word w = none) ∧
    ((∃ c ∈ w, isPySpace c = false) → (categorize_word w).isSome = true) := by
  constructor
  · intro h
    have hs : pySplit w = [] := pySplitAux_eq_nil w h
    simp [categorize_word, hs]
  · intro h
    have hs : pySplit w ≠ [] := pySplitAux_ne_nil w [] (Or.inl h)
    unfold categorize_word
    cases hps : pySplit w with
    | nil => exact absurd hps hs
    | cons sw rest =>
        simp only [hps]
        by_cases h1 : 1 < (sw :: rest).length
        · rw [if_pos h1]
          split
          · rfl
          · split
            · rfl
            · rfl
        · rw [if_neg h1]
          simp only [List.head?]
          split
          · rfl
          · split
            · rfl
            · split
              · rfl
              · split
                · rfl
                · rfl

/-- C4: the technical-suffix override — any single-token text whose
lower-cased token ends with one of the eleven technical suffixes is
classified hard, whatever its length, syllables or other signals. -/
theorem claim_C4_theorem (w sw : List Char) (hsplit : pySplit w = [sw])
    (hsuf : ∃ pat ∈ technical_patterns, endsWith pat (sw.map pyLower) = true) :
    categorize_word w = some Tier.difficile := by
  have htech : is_technical_term sw = true := by
    unfold is_technical_term
    rw [List.any_eq_true]
    obtain ⟨pat, hmem, hp⟩ := hsuf
    exact ⟨pat, hmem, hp⟩
  simp [categorize_word, hsplit, htech]

/-- C4 witness: `categorize_word("absorption") = hard` via the `-tion`
suffix. -/
theorem claim_C4_witness :
    categorize_word (String.data "absorption") = some Tier.difficile :=
  claim_C4_theorem (String.data "absorption") (String.data "absorption")
    (by decide) ⟨String.data "tion", by decide, by decide⟩

/-- C3 witness: the empty string and an all-space string both fail to
categorize. -/
theorem claim_C3_witness :
    categorize_word (String.data "") = none ∧
    categorize_word (String.data "  ") = none :=
  ⟨(claim_C3_theorem (String.data "")).1 (by decide),
   (claim_C3_theorem (String.data "  ")).1 (by decide)⟩

/-- C5: the phrase branch — with more than one token, the tier is easy
when `tokenCount ≤ 2` and the average (space-free characters divided by
token count) is at most 5, else medium when `tokenCount ≤ 3` and the
average is at most 7, else hard. -/
theorem claim_C5_theorem (w : List Char) (h : 1 < (pySplit w).length) :
    categorize_word w =
      (if (pySplit w).length ≤ 2 ∧
          (((w.filter fun c => ¬ c = ' ').length : ℚ) / ((pySplit w).length : ℚ)) ≤ 5 then
        some Tier.facile
       else if (pySplit w).length ≤ 3 ∧
          (((w.filter fun c => ¬ c = ' ').length : ℚ) / ((pySplit w).length : ℚ)) ≤ 7 then
        some Tier.moyen
       else some Tier.difficile) := by
  unfold categorize_word
  simp only [if_pos h]

/-- C5 witness: "le chat" (2 tokens, average 3) is easy and
"le petit chaton mignon" (4 tokens) is hard. -/
theorem claim_C5_witness :
    categorize_word (String.data "le chat") = some Tier.facile ∧
    categorize_word (String.data "le petit chaton mignon") = some Tier.difficile := by
  constructor
  · have hn : (pySplit (String.data "le chat")).length = 2 := by decide
    have hf : ((String.data "le chat").filter fun c => ¬ c = ' ').length = 6 := by decide
    rw [claim_C5_theorem (String.data "le chat") (by decide), hn, hf]
    norm_num
  · have hn : (pySplit (String.data "le petit chaton mignon")).length = 4 := by decide
    have hf : ((String.data "le petit chaton mignon").filter fun c => ¬ c = ' ').length = 19 := by
      decide
    rw [claim_C5_theorem (String.data "le petit chaton mignon") (by decide), hn, hf]
    norm_num

/-- C6: `has_complex_spelling` is true exactly when at least 2 of the 17
patterns match, a single match never flags a word, and a flagged
single-token word longer than 8 that is not a technical term is hard. -/
theorem claim_C6_theorem :
    (∀ w, has_complex_spelling w = true ↔ 2 ≤ complexMatchCount w) ∧
    (∀ w, complexMatchCount w = 1 → has_complex_spelling w = false) ∧
    (∀ w sw, pySplit w = [sw] → is_technical_term sw = false →
      has_complex_spelling sw = true → 8 < sw.length →
      categorize_word w = some Tier.difficile) := by
  refine ⟨fun w => ?_, fun w h1 => ?_, fun w sw hsplit htech hcplx hlen => ?_⟩
  · simp [has_complex_spelling]
  · simp [has_complex_spelling, h1]
  · simp [categorize_word, hsplit, htech, hcplx, hlen]

/-- C6 witness: `complexMatchCount` behaves as claimed on "chat" (one
pattern, unflagged) and categorizes "approchant" (two patterns, length
10, not technical) as hard. -/
theorem claim_C6_witness :
    has_complex_spelling (String.data "chat") = false ∧
    categorize_word (String.data "approchant") = some Tier.difficile :=
  ⟨claim_C6_theorem.2.1 (String.data "chat") (by decide),
   claim_C6_theorem.2.2 (String.data "approchant") (String.data "approchant")
     (by decide) (by decide) (by decide) (by decide)⟩

/-- Inside an all-vowel suffix, the scan with `prev_was_vowel = true`
adds no further run. -/
theorem countVowelRuns_true_of_all_vowel : ∀ l : List Char,
    (∀ c ∈ l, c ∈ vowels) → countVowelRuns l true = 0 := by
  intro l
  induction l with
  | nil => intro _; rfl
  | cons c cs ih =>
      intro h
      have hc : c ∈ vowels := h c (List.mem_cons_self c cs)
      have h0 : countVowelRuns cs true = 0 := ih fun d hd => h d (List.mem_cons_of_mem c hd)
      simp [countVowelRuns, hc, h0]

/-- A nonempty all-vowel word is one single vowel run. -/
theorem countVowelRuns_false_of_all_vowel (l : List Char) (hne : l ≠ [])
    (h : ∀ c ∈ l, c ∈ vowels) : countVowelRuns l false = 1 := by
  cases l with
  | nil => exact absurd rfl hne
  | cons c cs =>
      have hc : c ∈ vowels := h c (List.mem_cons_self c cs)
      have h0 : countVowelRuns cs true = 0 :=
        countVowelRuns_true_of_all_vowel cs fun d hd => h d (List.mem_cons_of_mem c hd)
      simp [countVowelRuns, hc, h0]

/-- C7: `count_syllables` always returns at least 1; a nonempty word
that lower-cases to a single vowel run without a trailing unaccented `e`
counts exactly 1; and a one-letter consonant word also counts 1. -/
theorem claim_C7_theorem :
    (∀ w, 1 ≤ count_syllables w) ∧
    (∀ w, w ≠ [] → (∀ c ∈ w, pyLower c ∈ vowels) →
      (w.map pyLower).getLast? ≠ some 'e' → count_syllables w = 1) ∧
    (∀ c, pyLower c ∉ vowels → count_syllables [c] = 1) := by
  refine ⟨fun w => Nat.le_max_left 1 _, fun w hne hv _ => ?_, fun c hc => ?_⟩
  · have hmap : ∀ d ∈ w.map pyLower, d ∈ vowels := by
      intro d hd
      obtain ⟨c, hc, rfl⟩ := List.mem_map.mp hd
      exact hv c hc
    have hmne : w.map pyLower ≠ [] := by
      cases w with
      | nil => exact absurd rfl hne
      | cons a l => simp
    have hrun : countVowelRuns (w.map pyLower) false = 1 :=
      countVowelRuns_false_of_all_vowel (w.map pyLower) hmne hmap
    simp [count_syllables, hrun]
  · simp [count_syllables, countVowelRuns, hc]

/-- C7 witness: "oui" (one vowel run, no trailing `e`) counts 1 syllable
and the single consonant "b" also counts 1. -/
theorem claim_C7_witness :
    count_syllables (String.data "oui") = 1 ∧ count_syllables ['b'] = 1 :=
  ⟨claim_C7_theorem.2.1 (String.data "oui") (by decide) (by decide) (by decide),
   claim_C7_theorem.2.2 'b' (by decide)⟩

/-- C10: the curated easy-word override — "chat" and "un" are easy, and
any single-token word that is not technical, does not satisfy the
complex-spelling-and-length rule, and whose lower-casing belongs to the
curated list (a case-insensitive test) is classified easy. -/
theorem claim_C10_theorem :
    categorize_word (String.data "chat") = some Tier.facile ∧
    categorize_word (String.data "un") = some Tier.facile ∧
    (∀ w sw, pySplit w = [sw] → is_technical_term sw = false →
      ¬(has_complex_spelling sw = true ∧ 8 < sw.length) →
      sw.map pyLower ∈ easy_words →
      categorize_word w = some Tier.facile) := by
  refine ⟨by decide, by decide, fun w sw hsplit htech hn2 hmem => ?_⟩
  simp [categorize_word, hsplit, htech, hn2, hmem]

/-- C10 witness: the membership test is case-insensitive —
the capitalized "Chat" is still easy. -/
theorem claim_C10_witness :
    categorize_word (String.data "Chat") = some Tier.facile :=
  claim_C10_theorem.2.2 (String.data "Chat") (String.data "Chat")
    (by decide) (by decide) (by decide) (by decide)

/-- C9: determinism — the build is a pure function of the input mapping,
so two runs on equal inputs produce equal dictionaries, with equal
entries in each of the three tiers. -/
theorem claim_C9_theorem (m₁ m₂ : List (String × String)) (h : m₁ = m₂) :
    buildDict m₁ emptyCategorized = buildDict m₂ emptyCategorized ∧
    (∀ d₁ d₂, buildDict m₁ emptyCategorized = some d₁ →
      buildDict m₂ emptyCategorized = some d₂ →
      d₁.facile = d₂.facile ∧ d₁.moyen = d₂.moyen ∧ d₁.difficile = d₂.difficile) := by
  subst h
  refine ⟨rfl, fun d₁ d₂ h₁ h₂ => ?_⟩
  rw [h₁] at h₂
  injection h₂ with h₂
  subst h₂
  exact ⟨rfl, rfl, rfl⟩

/-- C9 witness: two runs on the same one-entry mapping agree. -/
theorem claim_C9_witness :
    buildDict [("a1", "chat")] emptyCategorized =
      buildDict [("a1", "chat")] emptyCategorized :=
  (claim_C9_theorem [("a1", "chat")] [("a1", "chat")] rfl).1

/-- C8: failure atomicity — a missing input file yields the
MissingInputFile message naming the file and no output, and an output is
written only when the whole input was loaded and every entry classified. -/
theorem claim_C8_theorem (input_file : String) (load : LoadResult) :
    (load = LoadResult.missing →
      (parse_words_file input_file load).written = none ∧
      (parse_words_file input_file load).message =
        some ("Error: Could not find " ++ input_file)) ∧
    (∀ d, (parse_words_file input_file load).written = some d →
      ∃ data, load = LoadResult.parsed data ∧ buildDict data emptyCategorized = some d) := by
  constructor
  · intro h
    subst h
    exact ⟨rfl, rfl⟩
  · intro d hw
    cases load with
    | missing => simp [parse_words_file] at hw
    | badJSON => simp [parse_words_file] at hw
    | parsed data =>
        refine ⟨data, rfl, ?_⟩
        simp only [parse_words_file] at hw
        cases hb : buildDict data emptyCategorized with
        | none => rw [hb] at hw; simp at hw
        | some e =>
            rw [hb] at hw
            simp only at hw
            injection hw with hw
            subst hw
            rfl

/-- C8 witness: a missing `words_flac.json` produces the error message
naming it and leaves the output file unwritten. -/
theorem claim_C8_witness :
    (parse_words_file "words_flac.json" LoadResult.missing).written = none ∧
    (parse_words_file "words_flac.json" LoadResult.missing).message =
      some ("Error: Could not find " ++ "words_flac.json") :=
  ( claim_C8_theorem "words_flac.json" LoadResult.missing).1 rfl

/-- Every entry consumed by a successful build was classifiable. -/
theorem buildDict_classified : ∀ (data : List (String × String)) (acc e : CategorizedWords),
    buildDict data acc = some e →
      ∀ p ∈ data, (categorize_word (String.data p.2)).isSome = true := by
  intro data
  induction data with
  | nil => intro acc e _ p hp; exact absurd hp (List.not_mem_nil p)
  | cons q rest ih =>
      intro acc e h p hp
      obtain ⟨filename, text⟩ := q
      simp only [buildDict] at h
      cases hc : categorize_word text.data with
      | none => rw [hc] at h; simp at h
      | some t =>
          rw [hc] at h
          rcases List.mem_cons.mp hp with rfl | hp'
          · simp [hc]
          · exact ih _ _ h p hp'

/-- A successful build appends to each tier exactly the input entries
whose text classifies to that tier, in input order. -/
theorem buildDict_tierEntries : ∀ (data : List (String × String)) (acc e : CategorizedWords),
    buildDict data acc = some e → ∀ t, tierEntries e t =
      tierEntries acc t ++
        data.filter fun p => decide (categorize_word (String.data p.2) = some t) := by
  intro data
  induction data with
  | nil =>
      intro acc e h t
      simp only [buildDict] at h
      injection h with h
      subst h
      simp
  | cons q rest ih =>
      intro acc e h t
      obtain ⟨filename, text⟩ := q
      simp only [buildDict] at h
      cases hc : categorize_word text.data with
      | none => rw [hc] at h; simp at h
      | some t' =>
          rw [hc] at h
          have htail := ih _ _ h t
          rw [htail, List.filter_cons]
          simp only [hc]
          cases t <;> cases t' <;>
            simp [insertEntry, tierEntries, List.append_assoc]

/-- Key membership in a tier of a build that started from the empty
dictionary. -/
theorem mem_tierKeys_iff (data : List (String × String)) (e : CategorizedWords)
    (h : buildDict data emptyCategorized = some e) (t : Tier) (k : String) :
    k ∈ tierKeys e t ↔
      ∃ p ∈ data, p.1 = k ∧ categorize_word (String.data p.2) = some t := by
  have he := buildDict_tierEntries data emptyCategorized e h t
  have h0 : tierEntries emptyCategorized t = [] := by cases t <;> rfl
  rw [tierKeys, he, h0, List.nil_append]
  simp only [List.mem_map, List.mem_filter, decide_eq_true_eq]
  constructor
  · rintro ⟨p, ⟨hpmem, hpt⟩, hpk⟩
    exact ⟨p, hpmem, hpk, hpt⟩
  · rintro ⟨p, hpmem, hpk, hpt⟩
    exact ⟨p, ⟨hpmem, hpt⟩, hpk⟩

/-- C2: the partition invariant — for an input mapping (distinct keys),
a successful build gives three tiers that are pairwise disjoint in keys,
whose key union is the input key set, each input key in exactly one tier. -/
theorem claim_C2_theorem (input : List (String × String)) (e : CategorizedWords)
    (hnodup : (input.map Prod.fst).Nodup)
    (hbuild : buildDict input emptyCategorized = some e) :
    (∀ k, ¬(k ∈ tierKeys e Tier.facile ∧ k ∈ tierKeys e Tier.moyen)) ∧
    (∀ k, ¬(k ∈ tierKeys e Tier.facile ∧ k ∈ tierKeys e Tier.difficile)) ∧
    (∀ k, ¬(k ∈ tierKeys e Tier.moyen ∧ k ∈ tierKeys e Tier.difficile)) ∧
    (∀ k, k ∈ input.map Prod.fst ↔
      (k ∈ tierKeys e Tier.facile ∨ k ∈ tierKeys e Tier.moyen ∨
       k ∈ tierKeys e Tier.difficile)) ∧
    (∀ k, k ∈ input.map Prod.fst → ∃! t, k ∈ tierKeys e t) := by
  have hdisj : ∀ t₁ t₂ k, t₁ ≠ t₂ → k ∈ tierKeys e t₁ → k ∈ tierKeys e t₂ → False := by
    intro t₁ t₂ k hne h₁ h₂
    obtain ⟨p, hp, hpk, hpt⟩ := (mem_tierKeys_iff input e hbuild t₁ k).mp h₁
    obtain ⟨q, hq, hqk, hqt⟩ := (mem_tierKeys_iff input e hbuild t₂ k).mp h₂
    have hpq : p = q := List.inj_on_of_nodup_map hnodup hp hq (by rw [hpk, hqk])
    subst hpq
    rw [hpt] at hqt
    injection hqt with hqt
    exact hne hqt
  have hunion : ∀ k, k ∈ input.map Prod.fst ↔ (∃ t, k ∈ tierKeys e t) := by
    intro k
    constructor
    · intro hk
      obtain ⟨p, hp, hpk⟩ := List.mem_map.mp hk
      have hsome := buildDict_classified input emptyCategorized e hbuild p hp
      cases hc : categorize_word (String.data p.2) with
      | none => rw [hc] at hsome; simp at hsome
      | some t =>
          exact ⟨t, (mem_tierKeys_iff input e hbuild t k).mpr ⟨p, hp, hpk, hc⟩⟩
    · rintro ⟨t, ht⟩
      obtain ⟨p, hp, hpk, _⟩ := (mem_tierKeys_iff input e hbuild t k).mp ht
      exact List.mem_map.mpr ⟨p, hp, hpk⟩
  refine ⟨fun k h => hdisj _ _ k (by decide) h.1 h.2,
          fun k h => hdisj _ _ k (by decide) h.1 h.2,
          fun k h => hdisj _ _ k (by decide) h.1 h.2, ?_, ?_⟩
  · intro k
    rw [hunion k]
    constructor
    · rintro ⟨t, ht⟩
      cases t with
      | facile => exact Or.inl ht
      | moyen => exact Or.inr (Or.inl ht)
      | difficile => exact Or.inr (Or.inr ht)
    · rintro (h | h | h)
      exacts [⟨_, h⟩, ⟨_, h⟩, ⟨_, h⟩]
  · intro k hk
    obtain ⟨t, ht⟩ := (hunion k).mp hk
    refine ⟨t, ht, fun t' ht' => ?_⟩
    by_contra hne
    exact hdisj t' t k hne ht' ht

/-- C2 witness: on a three-entry input with one word per tier, the key
"a1" lies in the input keys iff it lies in the union of the tier keys. -/
theorem claim_C2_witness :
    "a1" ∈ ([("a1", "chat"), ("a2", "balcon"), ("a3", "absorption")] :
        List (String × String)).map Prod.fst ↔
      ("a1" ∈ tierKeys ⟨[("a1", "chat")], [("a2", "balcon")], [("a3", "absorption")]⟩
          Tier.facile ∨
       "a1" ∈ tierKeys ⟨[("a1", "chat")], [("a2", "balcon")], [("a3", "absorption")]⟩
          Tier.moyen ∨
       "a1" ∈ tierKeys ⟨[("a1", "chat")], [("a2", "balcon")], [("a3", "absorption")]⟩
          Tier.difficile) :=
  (claim_C2_theorem [("a1", "chat"), ("a2", "balcon"), ("a3", "absorption")]
    ⟨[("a1", "chat")], [("a2", "balcon")], [("a3", "absorption")]⟩
    (by decide) (by decide)).2.2.2.1 "a1"
